import Mathlib

/-!
Verification of the falco coverage instrumentation pass.

This file embeds the instrumentation pass of the falco interpreter
(`instrument.go`) as pure Lean functions and proves the specified
properties about it.  The Go code mutates the AST in place and appends
registry entries into a shared coverage table; the embedding purifies
this: every instrumentation function returns the rewritten node together
with the list of coverage-registry entries it created, in creation
order.  Applying the entry list to a registry value reproduces the
shared-table updates, since the registry operations used by the pass
only append.
-/

namespace Falco

/-- Source token (falco's `token.Token`): type tag, literal text, file
and the line/position coordinates used to derive marker identifiers. -/
structure Token where
  tokenType : String
  literal : String
  file : String
  line : Nat
  position : Nat
deriving Repr

/-- AST node metadata (falco's `ast.Meta`), carrying the source token. -/
structure Meta where
  token : Token
deriving Repr

/-- Modelled from the spec: `token.Null` (the token package is not under
src/) is the zero token carrying no source position. -/
def nullToken : Token :=
  { tokenType := "NULL", literal := "", file := "", line := 0, position := 0 }

/-- `var fake = &ast.Meta{Token: token.Null}`: the metadata attached to
every synthesized node. -/
def fake : Meta := { token := nullToken }

/-- Identifier node (falco's `ast.Ident`), used for function names. -/
structure Ident where
  meta : Meta
  value : String
deriving Repr

/-- Expression variants of the falco AST that the instrumentation pass
dispatches on: function call, grouped, infix, postfix, prefix, inline
conditional (`if(...)` expression) and the terminal literals and
identifiers (which the pass never descends into). -/
inductive Expression where
  | functionCall (meta : Meta) (function : Ident) (arguments : List Expression)
  | grouped (meta : Meta) (right : Expression)
  | infixExp (meta : Meta) (operator : String) (left right : Expression)
  | postfixExp (meta : Meta) (operator : String) (left : Expression)
  | prefixExp (meta : Meta) (operator : String) (right : Expression)
  | ifExp (meta : Meta) (condition consequence alternative : Expression)
  | stringLit (meta : Meta) (value : String)
  | identE (ident : Ident)
  | intLit (meta : Meta) (value : Int)
deriving Repr

/-- Source metadata of an expression (`GetMeta` on expression nodes). -/
def Expression.metaOf : Expression → Meta
  | .functionCall m _ _ => m
  | .grouped m _ => m
  | .infixExp m _ _ _ => m
  | .postfixExp m _ _ => m
  | .prefixExp m _ _ => m
  | .ifExp m _ _ _ => m
  | .stringLit m _ => m
  | .identE i => i.meta
  | .intLit m _ => m

mutual
/-- Statement variants of the falco AST as dispatched by
`instrumentStatement`: block, if, switch, function call, error, return,
the single-expression statements (set/add/log/synthetic/synthetic.base64)
and representatives of the default group that carries no
sub-expressions (esi/restart/break). -/
inductive Statement where
  | block (b : BlockStatement)
  | ifS (s : IfStatement)
  | switchS (s : SwitchStatement)
  | functionCallS (meta : Meta) (function : Ident) (arguments : List Expression)
  | errorS (meta : Meta) (code : Option Expression) (argument : Option Expression)
  | returnS (meta : Meta) (returnExpression : Option Expression)
  | setS (meta : Meta) (ident : String) (value : Expression)
  | addS (meta : Meta) (ident : String) (value : Expression)
  | logS (meta : Meta) (value : Expression)
  | syntheticS (meta : Meta) (value : Expression)
  | syntheticBase64S (meta : Meta) (value : Expression)
  | esiS (meta : Meta)
  | restartS (meta : Meta)
  | breakS (meta : Meta)
deriving Repr

/-- `ast.BlockStatement`: a braced list of statements. -/
inductive BlockStatement where
  | mk (meta : Meta) (statements : List Statement)
deriving Repr

/-- `ast.IfStatement`: keyword ("if"/"elseif"/...), condition, consequence
block, the flat list of chained else-if clauses (`Another`) and the
optional trailing else clause (`Alternative`). -/
inductive IfStatement where
  | mk (meta : Meta) (keyword : String) (condition : Expression)
      (consequence : BlockStatement) (another : List IfStatement)
      (alternative : Option ElseStatement)
deriving Repr

/-- `ast.ElseStatement`: a trailing else clause with its block. -/
inductive ElseStatement where
  | mk (meta : Meta) (consequence : BlockStatement)
deriving Repr

/-- `ast.SwitchStatement`: control expression and case clauses. -/
inductive SwitchStatement where
  | mk (meta : Meta) (control : Expression) (cases : List CaseStatement)
deriving Repr

/-- `ast.CaseStatement`: optional test expression and the case body. -/
inductive CaseStatement where
  | mk (meta : Meta) (test : Option Expression) (statements : List Statement)
deriving Repr
end

def BlockStatement.meta : BlockStatement → Meta
  | .mk m _ => m

def BlockStatement.statements : BlockStatement → List Statement
  | .mk _ ss => ss

def IfStatement.meta : IfStatement → Meta
  | .mk m _ _ _ _ _ => m

def IfStatement.keyword : IfStatement → String
  | .mk _ kw _ _ _ _ => kw

def IfStatement.condition : IfStatement → Expression
  | .mk _ _ c _ _ _ => c

def IfStatement.consequence : IfStatement → BlockStatement
  | .mk _ _ _ b _ _ => b

def IfStatement.another : IfStatement → List IfStatement
  | .mk _ _ _ _ a _ => a

def IfStatement.alternative : IfStatement → Option ElseStatement
  | .mk _ _ _ _ _ alt => alt

/-- Overwrite the `Keyword` field (the `a.Keyword = "if"` assignment). -/
def IfStatement.withKeyword : IfStatement → String → IfStatement
  | .mk m _ c b a alt, kw => .mk m kw c b a alt

/-- Overwrite the `Alternative` field (the `nest.Alternative = ...`
assignments of the chain rewrite). -/
def IfStatement.withAlternative : IfStatement → Option ElseStatement → IfStatement
  | .mk m kw c b a _, alt => .mk m kw c b a alt

def ElseStatement.meta : ElseStatement → Meta
  | .mk m _ => m

def ElseStatement.consequence : ElseStatement → BlockStatement
  | .mk _ b => b

def SwitchStatement.meta : SwitchStatement → Meta
  | .mk m _ _ => m

def SwitchStatement.control : SwitchStatement → Expression
  | .mk _ c _ => c

def SwitchStatement.cases : SwitchStatement → List CaseStatement
  | .mk _ _ cs => cs

def CaseStatement.meta : CaseStatement → Meta
  | .mk m _ _ => m

def CaseStatement.test : CaseStatement → Option Expression
  | .mk _ t _ => t

def CaseStatement.statements : CaseStatement → List Statement
  | .mk _ _ ss => ss

/-- Source metadata of a statement (`GetMeta` on statement nodes). -/
def Statement.metaOf : Statement → Meta
  | .block b => b.meta
  | .ifS s => s.meta
  | .switchS s => s.meta
  | .functionCallS m _ _ => m
  | .errorS m _ _ => m
  | .returnS m _ => m
  | .setS m _ _ => m
  | .addS m _ _ => m
  | .logS m _ => m
  | .syntheticS m _ => m
  | .syntheticBase64S m _ => m
  | .esiS m => m
  | .restartS m => m
  | .breakS m => m

/-- `ast.SubroutineDeclaration`: name and body block. -/
structure SubroutineDeclaration where
  meta : Meta
  name : Ident
  block : BlockStatement

/-- A reference to the AST node handed to `createMarker` as its
`ast.Node` argument (the originating node registered with the coverage
registry).  In Go this is an interface value over the node pointer; the
pure embedding stores the node value it referred to when the marker was
created. -/
inductive NodeRef where
  | subN (s : SubroutineDeclaration)
  | stmtN (s : Statement)
  | ifN (s : IfStatement)
  | switchN (s : SwitchStatement)
  | caseN (c : CaseStatement)
  | exprN (e : Expression)

/-- `node.GetMeta()` for a marker's originating node. -/
def NodeRef.getMeta : NodeRef → Meta
  | .subN s => s.meta
  | .stmtN s => s.metaOf
  | .ifN s => s.meta
  | .switchN s => s.meta
  | .caseN c => c.meta
  | .exprN e => e.metaOf

/-- The three coverage kinds (`shared.CoverageType`). -/
inductive CoverageType where
  | subroutine
  | statement
  | branch
deriving Repr, DecidableEq

/-- Modelled from the spec: `shared.CoverageType.String()` is not under
src/; the spec only requires one reserved built-in name per coverage
kind, so each kind maps to a distinct name. -/
def CoverageType.toName : CoverageType → String
  | .subroutine => "subroutine"
  | .statement => "statement"
  | .branch => "branch"

/-- One coverage-registry registration performed by `createMarker`: the
kind-specific `Setup*` call with its identifier and originating node.
Instrumentation functions return these in creation order. -/
structure Entry where
  kind : CoverageType
  id : String
  node : NodeRef

/-- Modelled from the spec: the Coverage Registry (`shared.Coverage` is
not under src/) is a table with one bucket per coverage kind mapping
each marker identifier to its originating node. -/
structure Coverage where
  subroutines : List (String × NodeRef)
  statements : List (String × NodeRef)
  branches : List (String × NodeRef)

/-- Modelled from the spec: `SetupSubroutine`/`SetupStatement`/
`SetupBranch` register (identifier → node) into the bucket matching the
kind, accumulating entries and never deleting. -/
def Coverage.setup (cov : Coverage) (e : Entry) : Coverage :=
  match e.kind with
  | .subroutine => { cov with subroutines := cov.subroutines ++ [(e.id, e.node)] }
  | .statement => { cov with statements := cov.statements ++ [(e.id, e.node)] }
  | .branch => { cov with branches := cov.branches ++ [(e.id, e.node)] }

/-- Replay a list of registrations, in order, against a registry. -/
def Coverage.applyEntries (cov : Coverage) (es : List Entry) : Coverage :=
  es.foldl Coverage.setup cov

/-- The bucket of a registry matching a coverage kind. -/
def Coverage.bucket (cov : Coverage) : CoverageType → List (String × NodeRef)
  | .subroutine => cov.subroutines
  | .statement => cov.statements
  | .branch => cov.branches

/-- `createMarker(t, node, suffix...)`: derives the marker identifier
from the kind prefix, the node's token line/position and the joined
suffix, records the (identifier → node) registration for the bucket of
`t`, and returns the synthetic statement calling the coverage built-in
for `t` with the identifier as its sole string-literal argument. -/
def createMarker (t : CoverageType) (node : NodeRef) (suffix : List String) :
    Statement × List Entry :=
  let name := "coverage." ++ t.toName
  let tok := node.getMeta.token
  let s := if suffix.length > 0 then "_" ++ "_".intercalate suffix else ""
  let id :=
    (match t with
      | .subroutine => "sub_" ++ toString tok.line ++ "_" ++ toString tok.position
      | .statement => "stmt_" ++ toString tok.line ++ "_" ++ toString tok.position
      | .branch => "branch_" ++ toString tok.line ++ "_" ++ toString tok.position) ++ s
  ( Statement.functionCallS fake
      { meta := { token := { tokenType := "STRING", literal := name, file := "", line := 0, position := 0 } },
        value := name }
      [Expression.stringLit
        { token := { tokenType := "STRING", literal := id, file := "", line := 0, position := 0 } }
        id],
    [{ kind := t, id := id, node := node }] )

/-- `instrumentIfExpression`: builds the synthetic full conditional that
re-evaluates the inline conditional's condition and records the "true"
or "false" branch marker, both keyed on the whole inline-conditional
expression.  The expression's own condition/consequence/alternative
sub-expressions are not visited. -/
def instrumentIfExpression (meta : Meta)
    (condition consequence alternative : Expression) :
    List Statement × List Entry :=
  let node := NodeRef.exprN (.ifExp meta condition consequence alternative)
  let pTrue := createMarker .branch node ["true"]
  let pFalse := createMarker .branch node ["false"]
  let branch : IfStatement :=
    .mk fake "if" condition (.mk fake [pTrue.1]) []
      (some (.mk fake (.mk fake [pFalse.1])))
  ([Statement.ifS branch], pTrue.2 ++ pFalse.2)

mutual
/-- `instrumentExpression`: discovery pass collecting the synthetic
statements for every inline conditional found in the expression tree;
terminals contribute nothing. -/
def instrumentExpression : Expression → List Statement × List Entry
  | .functionCall _ _ arguments => instrumentExpressionList arguments
  | .grouped _ right => instrumentExpression right
  | .infixExp _ _ left right =>
      let pl := instrumentExpression left
      let pr := instrumentExpression right
      (pl.1 ++ pr.1, pl.2 ++ pr.2)
  | .postfixExp _ _ left => instrumentExpression left
  | .prefixExp _ _ right => instrumentExpression right
  | .ifExp m c cons alt => instrumentIfExpression m c cons alt
  | .stringLit _ _ => ([], [])
  | .identE _ => ([], [])
  | .intLit _ _ => ([], [])
termination_by e => sizeOf e

/-- The argument loops of `instrumentExpression` (function-call
arguments) and `instrumentFunctionCallStatement`. -/
def instrumentExpressionList : List Expression → List Statement × List Entry
  | [] => ([], [])
  | e :: rest =>
      let ph := instrumentExpression e
      let pt := instrumentExpressionList rest
      (ph.1 ++ pt.1, ph.2 ++ pt.2)
termination_by l => sizeOf l
end

/-- `instrumentFunctionCallStatement`: instruments each argument; emits
no marker for the call statement itself. -/
def instrumentFunctionCallStatement (arguments : List Expression) :
    List Statement × List Entry :=
  instrumentExpressionList arguments

/-- `instrumentErrorStatement`: statement marker, then instrumentation
of the present `Code` and `Argument` operands. -/
def instrumentErrorStatement (meta : Meta) (code argument : Option Expression) :
    List Statement × List Entry :=
  let pm := createMarker .statement (.stmtN (.errorS meta code argument)) []
  let pc := match code with
    | some c => instrumentExpression c
    | none => ([], [])
  let pa := match argument with
    | some a => instrumentExpression a
    | none => ([], [])
  (pm.1 :: (pc.1 ++ pa.1), pm.2 ++ pc.2 ++ pa.2)

/-- `instrumentReturnStatement`: statement marker, then instrumentation
of the present return expression. -/
def instrumentReturnStatement (meta : Meta) (returnExpression : Option Expression) :
    List Statement × List Entry :=
  let pm := createMarker .statement (.stmtN (.returnS meta returnExpression)) []
  let pr := match returnExpression with
    | some r => instrumentExpression r
    | none => ([], [])
  (pm.1 :: pr.1, pm.2 ++ pr.2)

mutual
/-- `instrumentStatements`: for each statement in order, the statements
produced by `instrumentStatement` are placed immediately before the
(possibly rewritten-in-place) statement itself. -/
def instrumentStatements : List Statement → List Statement × List Entry
  | [] => ([], [])
  | s :: rest =>
      let ph := instrumentStatement s
      let pt := instrumentStatements rest
      (ph.1 ++ ph.2.1 :: pt.1, ph.2.2 ++ pt.2)
termination_by l => sizeOf l

/-- `instrumentStatement`: dispatch on the statement kind.  The Go
function returns the statements to insert before the statement and
mutates the statement in place where a rewrite applies; the embedding
returns the insertions together with the statement's rewritten value. -/
def instrumentStatement : Statement → List Statement × Statement × List Entry
  | .block (.mk bm ss) =>
      let p := instrumentStatements ss
      ([], .block (.mk bm p.1), p.2)
  | .ifS s =>
      let pm := createMarker .statement (.ifN s) []
      let p := instrumentIfStatement s
      ([pm.1], .ifS p.1, pm.2 ++ p.2)
  | .switchS s =>
      let pm := createMarker .statement (.switchN s) []
      let p := instrumentSwitchStatement s
      ([pm.1], .switchS p.1, pm.2 ++ p.2)
  | .functionCallS meta function arguments =>
      let p := instrumentFunctionCallStatement arguments
      (p.1, .functionCallS meta function arguments, p.2)
  | .errorS meta code argument =>
      let p := instrumentErrorStatement meta code argument
      (p.1, .errorS meta code argument, p.2)
  | .returnS meta returnExpression =>
      let p := instrumentReturnStatement meta returnExpression
      (p.1, .returnS meta returnExpression, p.2)
  | .setS meta ident value =>
      let pm := createMarker .statement (.stmtN (.setS meta ident value)) []
      let p := instrumentExpression value
      (pm.1 :: p.1, .setS meta ident value, pm.2 ++ p.2)
  | .addS meta ident value =>
      let pm := createMarker .statement (.stmtN (.addS meta ident value)) []
      let p := instrumentExpression value
      (pm.1 :: p.1, .addS meta ident value, pm.2 ++ p.2)
  | .logS meta value =>
      let pm := createMarker .statement (.stmtN (.logS meta value)) []
      let p := instrumentExpression value
      (pm.1 :: p.1, .logS meta value, pm.2 ++ p.2)
  | .syntheticS meta value =>
      let pm := createMarker .statement (.stmtN (.syntheticS meta value)) []
      let p := instrumentExpression value
      (pm.1 :: p.1, .syntheticS meta value, pm.2 ++ p.2)
  | .syntheticBase64S meta value =>
      let pm := createMarker .statement (.stmtN (.syntheticBase64S meta value)) []
      let p := instrumentExpression value
      (pm.1 :: p.1, .syntheticBase64S meta value, pm.2 ++ p.2)
  | .esiS meta =>
      let pm := createMarker .statement (.stmtN (.esiS meta)) []
      ([pm.1], .esiS meta, pm.2)
  | .restartS meta =>
      let pm := createMarker .statement (.stmtN (.restartS meta)) []
      ([pm.1], .restartS meta, pm.2)
  | .breakS meta =>
      let pm := createMarker .statement (.stmtN (.breakS meta)) []
      ([pm.1], .breakS meta, pm.2)
termination_by s => sizeOf s

/-- `instrumentIfStatement`: branch marker 1 (keyed on the statement)
prefixed to the instrumented consequence, the else-if chain folded into
nested alternatives by `instrumentAnother`, and the flat `Another` list
cleared. -/
def instrumentIfStatement : IfStatement → IfStatement × List Entry
  | .mk meta keyword condition (.mk cbm cstmts) another alternative =>
      let root := NodeRef.ifN (.mk meta keyword condition (.mk cbm cstmts) another alternative)
      let pm := createMarker .branch root ["1"]
      let pc := instrumentStatements cstmts
      let pa := instrumentAnother root 1 another alternative
      (.mk meta keyword condition (.mk cbm (pm.1 :: pc.1)) [] (pa.1.getD alternative),
        pm.2 ++ pc.2 ++ pa.2)
termination_by s => sizeOf s

/-- The loop of `instrumentIfStatement` over the `Another` clauses,
followed by the attachment of the trailing else.  `root` is the chain's
root statement (all loop markers are keyed on it) and `branch` the
counter value so far.  The result is the value assigned to the current
chain tail's `Alternative` (`none` when the tail keeps the alternative
the recursive rewrite left on it, which happens exactly when the clause
list is exhausted with no trailing else).  Go sets `a.Keyword = "if"`
just before the recursive call; since `instrumentIfStatement` never
reads or writes its own argument's keyword, the embedding applies the
same assignment to the recursion's result. -/
def instrumentAnother (root : NodeRef) (branch : Nat) :
    List IfStatement → Option ElseStatement →
    Option (Option ElseStatement) × List Entry
  | [], none => (none, [])
  | [], some (.mk am (.mk abm astmts)) =>
      let pm := createMarker .branch root [toString (branch + 1)]
      let ps := instrumentStatements astmts
      (some (some (.mk am (.mk abm (pm.1 :: ps.1)))), pm.2 ++ ps.2)
  | a :: rest, alternative =>
      let pa := instrumentIfStatement a
      let pm := createMarker .branch root [toString (branch + 1)]
      let pn := instrumentAnother root (branch + 1) rest alternative
      let aFinal := match pn.1 with
        | none => pa.1.withKeyword "if"
        | some v => (pa.1.withKeyword "if").withAlternative v
      (some (some (.mk fake (.mk fake [pm.1, .ifS aFinal]))), pa.2 ++ pm.2 ++ pn.2)
termination_by l alt => sizeOf l + sizeOf alt

/-- `instrumentSwitchStatement`: every case body is prefixed with the
marker pair and recursively instrumented, with the branch counter
starting at 1. -/
def instrumentSwitchStatement : SwitchStatement → SwitchStatement × List Entry
  | .mk meta control cases =>
      let sw := NodeRef.switchN (.mk meta control cases)
      let p := instrumentSwitchCases sw 1 cases
      (.mk meta control p.1, p.2)
termination_by s => sizeOf s

/-- The loop of `instrumentSwitchStatement` over the case clauses:
one marker keyed on the switch node carrying the branch number, one
keyed on the case node with no suffix, then the instrumented body. -/
def instrumentSwitchCases (sw : NodeRef) (branch : Nat) :
    List CaseStatement → List CaseStatement × List Entry
  | [] => ([], [])
  | .mk cm ctest cstmts :: rest =>
      let pm1 := createMarker .branch sw [toString branch]
      let pm2 := createMarker .branch (.caseN (.mk cm ctest cstmts)) []
      let ps := instrumentStatements cstmts
      let pt := instrumentSwitchCases sw (branch + 1) rest
      (.mk cm ctest (pm1.1 :: pm2.1 :: ps.1) :: pt.1, pm1.2 ++ pm2.2 ++ ps.2 ++ pt.2)
termination_by l => sizeOf l
end

/-- `instrumentSubroutine`: subroutine marker followed by the
instrumented body statements. -/
def instrumentSubroutine (sub : SubroutineDeclaration) :
    SubroutineDeclaration × List Entry :=
  let pm := createMarker .subroutine (.subN sub) []
  let ps := instrumentStatements sub.block.statements
  ({ sub with block := .mk sub.block.meta (pm.1 :: ps.1) }, pm.2 ++ ps.2)

/-- A top-level VCL declaration: the pass instruments subroutine
declarations and ignores every other root declaration (backend, table,
and so on). -/
inductive RootDeclaration where
  | subroutine (s : SubroutineDeclaration)
  | otherDecl (meta : Meta)

/-- `ast.VCL`: the parsed program, a list of root declarations. -/
structure VCL where
  statements : List RootDeclaration

/-- The loop of `instrument` over the root declarations. -/
def instrumentRoots : List RootDeclaration → List RootDeclaration × List Entry
  | [] => ([], [])
  | .subroutine s :: rest =>
      let ph := instrumentSubroutine s
      let pt := instrumentRoots rest
      (.subroutine ph.1 :: pt.1, ph.2 ++ pt.2)
  | .otherDecl m :: rest =>
      let pt := instrumentRoots rest
      (.otherDecl m :: pt.1, pt.2)

/-- `instrument`: add coverage markers to the entire VCL, walking the
subroutine declarations. -/
def instrument (vcl : VCL) : VCL × List Entry :=
  let p := instrumentRoots vcl.statements
  (⟨p.1⟩, p.2)

/-- The marker identifier derived by `createMarker` for a kind, node and
suffix list: kind prefix, underscore, token line, underscore, token
position, then an underscore-joined suffix when one is given.  Stated
separately so theorems can name the identifier; `createMarker_eq` proves
it is exactly what `createMarker` computes. -/
def markerId (t : CoverageType) (node : NodeRef) (suffix : List String) : String :=
  let tok := node.getMeta.token
  let s := if suffix.length > 0 then "_" ++ "_".intercalate suffix else ""
  (match t with
    | .subroutine => "sub_" ++ toString tok.line ++ "_" ++ toString tok.position
    | .statement => "stmt_" ++ toString tok.line ++ "_" ++ toString tok.position
    | .branch => "branch_" ++ toString tok.line ++ "_" ++ toString tok.position) ++ s

/-! ## Execution model

The interpreter itself is not part of the shown sources; the spec
specifies it at its interface: it executes statements sequentially, a
conditional chain evaluates its conditions in source order with
short-circuiting, a multi-way match runs the selected case body, and the
only construct instrumentation introduces is the synthetic marker
statement, a call to one of three reserved built-in names whose only
observable effect is a coverage-registry update.  The model below
records the externally observable effect of each executed statement as
an event trace; condition truth is supplied by an arbitrary pure
valuation `ce` of condition expressions, and switch-case selection by an
arbitrary function `pk` of the control expression and the case tests. -/

/-- Modelled from the spec: the externally observable effect of one
executed statement. -/
inductive Event where
  | call (function : String) (arguments : List Expression)
  | setE (ident : String) (value : Expression)
  | addE (ident : String) (value : Expression)
  | logE (value : Expression)
  | syntheticE (value : Expression)
  | syntheticBase64E (value : Expression)
  | errorE (code : Option Expression) (argument : Option Expression)
  | returnE (returnExpression : Option Expression)
  | esiE
  | restartE
  | breakE
deriving Repr

/-- Modelled from the spec: the three reserved coverage built-in names
(one per coverage kind). -/
def coverageFunctionNames : List String :=
  ["coverage.subroutine", "coverage.statement", "coverage.branch"]

/-- Whether an event is a call to a reserved coverage built-in, i.e. a
coverage-registry update. -/
def isCoverageCall : Event → Bool
  | .call fn _ => coverageFunctionNames.contains fn
  | _ => false

/-- The externally observable side effects of a trace: everything but
the coverage-registry updates. -/
def project (tr : List Event) : List Event :=
  tr.filter (fun e => !isCoverageCall e)

mutual
/-- Modelled from the spec: sequential execution of a statement list. -/
def execStmts (ce : Expression → Bool)
    (pk : Expression → List (Option Expression) → Option Nat) :
    List Statement → List Event
  | [] => []
  | s :: rest => execStmt ce pk s ++ execStmts ce pk rest
termination_by l => sizeOf l

/-- Modelled from the spec: execution of a single statement.  A function
call is an opaque statement-with-arguments; every other leaf statement
contributes its own effect. -/
def execStmt (ce : Expression → Bool)
    (pk : Expression → List (Option Expression) → Option Nat) :
    Statement → List Event
  | .block (.mk _ ss) => execStmts ce pk ss
  | .ifS s => execIf ce pk s
  | .switchS (.mk _ control cases) =>
      (match pk control (cases.map CaseStatement.test) with
        | some k => execSwitchCases ce pk k cases
        | none => [])
  | .functionCallS _ function arguments => [.call function.value arguments]
  | .errorS _ code argument => [.errorE code argument]
  | .returnS _ returnExpression => [.returnE returnExpression]
  | .setS _ ident value => [.setE ident value]
  | .addS _ ident value => [.addE ident value]
  | .logS _ value => [.logE value]
  | .syntheticS _ value => [.syntheticE value]
  | .syntheticBase64S _ value => [.syntheticBase64E value]
  | .esiS _ => [.esiE]
  | .restartS _ => [.restartE]
  | .breakS _ => [.breakE]
termination_by s => sizeOf s

/-- Modelled from the spec: a conditional chain evaluates its condition;
when true the consequence block runs, otherwise the else-if clauses are
scanned in source order (each clause running only its own consequence
when its condition is true), and the trailing else runs when no
condition held. -/
def execIf (ce : Expression → Bool)
    (pk : Expression → List (Option Expression) → Option Nat) :
    IfStatement → List Event
  | .mk _ _ condition (.mk _ conseq) another alternative =>
      if ce condition then execStmts ce pk conseq
      else execElse ce pk another alternative
termination_by s => sizeOf s

/-- Modelled from the spec: the else-if scan followed by the trailing
else. -/
def execElse (ce : Expression → Bool)
    (pk : Expression → List (Option Expression) → Option Nat) :
    List IfStatement → Option ElseStatement → List Event
  | [], none => []
  | [], some (.mk _ (.mk _ ss)) => execStmts ce pk ss
  | .mk _ _ acond (.mk _ aconseq) _ _ :: rest, alternative =>
      if ce acond then execStmts ce pk aconseq
      else execElse ce pk rest alternative
termination_by l alt => sizeOf l + sizeOf alt

/-- Modelled from the spec: running the selected case body of a
multi-way match (selection out of range runs nothing). -/
def execSwitchCases (ce : Expression → Bool)
    (pk : Expression → List (Option Expression) → Option Nat) :
    Nat → List CaseStatement → List Event
  | _, [] => []
  | 0, .mk _ _ ss :: _ => execStmts ce pk ss
  | k + 1, _ :: rest => execSwitchCases ce pk k rest
termination_by _ l => sizeOf l
end

mutual
/-- Parser-shaped statements: inside every conditional chain, each
else-if clause carries an empty `Another` list and no `Alternative` of
its own (the parser attaches the whole chain's continuation to the root
statement), recursively in all nested bodies. -/
def chainWFList : List Statement → Bool
  | [] => true
  | s :: rest => chainWFStmt s && chainWFList rest
termination_by l => sizeOf l

/-- Parser-shaped single statement (see `chainWFList`). -/
def chainWFStmt : Statement → Bool
  | .block (.mk _ ss) => chainWFList ss
  | .ifS s => chainWFIf s
  | .switchS (.mk _ _ cs) => chainWFCases cs
  | .functionCallS _ _ _ => true
  | .errorS _ _ _ => true
  | .returnS _ _ => true
  | .setS _ _ _ => true
  | .addS _ _ _ => true
  | .logS _ _ => true
  | .syntheticS _ _ => true
  | .syntheticBase64S _ _ => true
  | .esiS _ => true
  | .restartS _ => true
  | .breakS _ => true
termination_by s => sizeOf s

/-- Parser-shaped conditional chain (see `chainWFList`). -/
def chainWFIf : IfStatement → Bool
  | .mk _ _ _ (.mk _ conseq) another alternative =>
      chainWFList conseq && chainWFAnother another && chainWFAlt alternative
termination_by s => sizeOf s

/-- Parser-shaped trailing else (see `chainWFList`). -/
def chainWFAlt : Option ElseStatement → Bool
  | none => true
  | some (.mk _ (.mk _ ss)) => chainWFList ss
termination_by alt => sizeOf alt

/-- Parser-shaped else-if clauses (see `chainWFList`). -/
def chainWFAnother : List IfStatement → Bool
  | [] => true
  | .mk _ _ _ (.mk _ aconseq) aanother aalt :: rest =>
      aanother.isEmpty && aalt.isNone && chainWFList aconseq && chainWFAnother rest
termination_by l => sizeOf l

/-- Parser-shaped case clauses (see `chainWFList`). -/
def chainWFCases : List CaseStatement → Bool
  | [] => true
  | .mk _ _ ss :: rest => chainWFList ss && chainWFCases rest
termination_by l => sizeOf l
end

/-! ## The `testing.fixed_time` built-in (`tester/function/testing_fixed_time.go`) -/

/-- Modelled from the spec: a Go `time.Time` value as produced by this
built-in, either from a unix timestamp (`time.Unix(sec, 0)`) or from a
parsed calendar date. -/
inductive GoTime where
  | fromUnix (sec : Int)
  | fromDate (year month day hour minute second : Nat)
deriving Repr, DecidableEq

/-- The runtime value types of the interpreter's value system
(`value.Type()` results). -/
inductive ValueType where
  | integer
  | float
  | string
  | boolean
  | rtime
  | time
  | backend
  | acl
  | ip
  | null
deriving Repr, DecidableEq

/-- The type names used in error messages. -/
def ValueType.toName : ValueType → String
  | .integer => "INTEGER"
  | .float => "FLOAT"
  | .string => "STRING"
  | .boolean => "BOOLEAN"
  | .rtime => "RTIME"
  | .time => "TIME"
  | .backend => "BACKEND"
  | .acl => "ACL"
  | .ip => "IP"
  | .null => "NULL"

/-- Modelled from the spec: the interpreter's typed runtime values (the
value package is not under src/); payloads irrelevant to the claims are
reduced to representative data. -/
inductive Value where
  | integer (value : Int)
  | float (value : Int)
  | str (value : String)
  | boolean (value : Bool)
  | rtime (value : Int)
  | time (value : GoTime)
  | backend (name : String)
  | acl (name : String)
  | ip (value : String)
  | null
deriving Repr, DecidableEq

/-- `Value.Type()`. -/
def Value.type : Value → ValueType
  | .integer _ => .integer
  | .float _ => .float
  | .str _ => .string
  | .boolean _ => .boolean
  | .rtime _ => .rtime
  | .time _ => .time
  | .backend _ => .backend
  | .acl _ => .acl
  | .ip _ => .ip
  | .null => .null

/-- Modelled from the spec: the typed errors a built-in returns (the
errors package is not under src/): the arity error built by
`errors.ArgumentNotEnough` and the testing error built by
`errors.NewTestingError`. -/
inductive FunctionError where
  | argumentNotEnough (name : String) (expected : Nat) (args : List Value)
  | testingError (message : String)
deriving Repr, DecidableEq

/-- Modelled from the spec: the error's rendered message (`err.Error()`),
a deterministic string of the error's data. -/
def FunctionError.message : FunctionError → String
  | .argumentNotEnough name expected args =>
      name ++ " wrong number of arguments: expected " ++ toString expected ++
        ", got " ++ toString args.length
  | .testingError m => m

/-- Modelled from the spec: the part of the shared interpreter context
this built-in mutates (`ctx.FixedTime`, the installed fixed clock). -/
structure Context where
  fixedTime : Option GoTime
deriving Repr, DecidableEq

/-- `const Testing_fixed_time_Name = "testing.fixed_time"`. -/
def Testing_fixed_time_Name : String := "testing.fixed_time"

/-- `Testing_fixed_time_Validate`: arity check, one argument required. -/
def Testing_fixed_time_Validate (args : List Value) : Option FunctionError :=
  if args.length ≠ 1 then
    some (.argumentNotEnough Testing_fixed_time_Name 1 args)
  else
    none

/-- Take exactly `n` leading decimal digits (a fixed-width numeric
element of the Go time layout). -/
def takeDigits : Nat → List Char → Option (Nat × List Char)
  | 0, cs => some (0, cs)
  | _ + 1, [] => none
  | n + 1, c :: cs =>
      if c.isDigit then
        match takeDigits n cs with
        | some (v, rest) => some ((c.toNat - 48) * 10 ^ n + v, rest)
        | none => none
      else none

/-- Take one or two leading decimal digits (a non-zero-padded numeric
element of the Go time layout, such as the hour `15`). -/
def takeOneOrTwoDigits : List Char → Option (Nat × List Char)
  | [] => none
  | c :: cs =>
      if c.isDigit then
        match cs with
        | c2 :: cs2 =>
            if c2.isDigit then some ((c.toNat - 48) * 10 + (c2.toNat - 48), cs2)
            else some (c.toNat - 48, cs)
        | [] => some (c.toNat - 48, [])
      else none

/-- Expect a literal layout character. -/
def expectChar (c : Char) : List Char → Option (List Char)
  | [] => none
  | c2 :: cs => if c2 = c then some cs else none

/-- Gregorian leap year. -/
def isLeapYear (y : Nat) : Bool :=
  y % 4 == 0 && (y % 100 != 0 || y % 400 == 0)

/-- Days in a month. -/
def daysIn (month year : Nat) : Nat :=
  if month = 2 then (if isLeapYear year then 29 else 28)
  else if month = 4 ∨ month = 6 ∨ month = 9 ∨ month = 11 then 30
  else 31

/-- Modelled from the spec: Go's `time.Parse` for the fixed layout
`"2006-01-02 15:04:05"` — four year digits, the zero-padded two-digit
month/day/minute/second, the one-or-two-digit hour, the literal
separators, the whole input consumed, and the range checks Go applies
(month 1–12, day within the month, hour below 24, minute and second
below 60). -/
def goParseFixedTime (s : String) : Option GoTime :=
  match takeDigits 4 s.toList with
  | none => none
  | some (year, r1) =>
    match expectChar '-' r1 with
    | none => none
    | some r2 =>
      match takeDigits 2 r2 with
      | none => none
      | some (month, r3) =>
        match expectChar '-' r3 with
        | none => none
        | some r4 =>
          match takeDigits 2 r4 with
          | none => none
          | some (day, r5) =>
            match expectChar ' ' r5 with
            | none => none
            | some r6 =>
              match takeOneOrTwoDigits r6 with
              | none => none
              | some (hour, r7) =>
                match expectChar ':' r7 with
                | none => none
                | some r8 =>
                  match takeDigits 2 r8 with
                  | none => none
                  | some (minute, r9) =>
                    match expectChar ':' r9 with
                    | none => none
                    | some r10 =>
                      match takeDigits 2 r10 with
                      | none => none
                      | some (second, r11) =>
                        if r11 = [] ∧ 1 ≤ month ∧ month ≤ 12 ∧
                            1 ≤ day ∧ day ≤ daysIn month year ∧
                            hour ≤ 23 ∧ minute ≤ 59 ∧ second ≤ 59 then
                          some (.fromDate year month day hour minute second)
                        else none

/-- The result of one built-in call: the returned value (`none` models
Go's nil), the returned error and the (possibly mutated) context. -/
structure BuiltinResult where
  value : Option Value
  err : Option FunctionError
  ctx : Context
deriving Repr, DecidableEq

/-- `Testing_fixed_time`: validates the arity, then switches on the
argument type — INTEGER installs `time.Unix(v, 0)`, TIME installs the
time value, STRING parses with the fixed layout and installs the result
or reports an invalid format, and every other type reports a type
error.  Error paths leave the context untouched. -/
def Testing_fixed_time (ctx : Context) (args : List Value) : BuiltinResult :=
  match Testing_fixed_time_Validate args with
  | some e => { value := none, err := some (.testingError e.message), ctx := ctx }
  | none =>
    match args with
    | arg0 :: _ =>
      match arg0 with
      | .integer v =>
          { value := some .null, err := none,
            ctx := { ctx with fixedTime := some (.fromUnix v) } }
      | .time t =>
          { value := some .null, err := none,
            ctx := { ctx with fixedTime := some t } }
      | .str sv =>
          (match goParseFixedTime sv with
            | some ft =>
                { value := some .null, err := none,
                  ctx := { ctx with fixedTime := some ft } }
            | none =>
                { value := some .null,
                  err := some (.testingError ("Invalid time format: " ++ sv)),
                  ctx := ctx })
      | other =>
          { value := some .null,
            err := some (.testingError
              ("First argument of " ++ Testing_fixed_time_Name ++
                " must be INTEGER or TIME or STRING type, " ++
                other.type.toName ++ " provided")),
            ctx := ctx }
    | [] =>
      -- Unreachable: Validate accepted, so the argument list has length 1.
      { value := none, err := some (.testingError "unreachable"), ctx := ctx }

/-- A registry entry whose identifier has the marker format: derived by
the identifier function from the entry's own kind, its node's source
position and some suffix list. -/
def entryGood (e : Entry) : Prop :=
  ∃ suffix, e.id = markerId e.kind e.node suffix

/-! ## Theorems -/

theorem toString_nat_two : (toString (2 : Nat)) = "2" := by decide

theorem toString_nat_three : (toString (3 : Nat)) = "3" := by decide

theorem toString_nat_four : (toString (4 : Nat)) = "4" := by decide

/-- `createMarker` decomposed: the returned statement calls the coverage
built-in of the kind with the derived identifier as its only
string-literal argument, and the single registration it performs pairs
that identifier with the originating node. -/
theorem createMarker_eq (t : CoverageType) (node : NodeRef) (suffix : List String) :
    createMarker t node suffix =
      (Statement.functionCallS fake
        ⟨⟨⟨"STRING", "coverage." ++ t.toName, "", 0, 0⟩⟩, "coverage." ++ t.toName⟩
        [Expression.stringLit ⟨⟨"STRING", markerId t node suffix, "", 0, 0⟩⟩
          (markerId t node suffix)],
        [⟨t, markerId t node suffix, node⟩]) := by
  cases t <;> rfl

theorem createMarker_entries_good (t : CoverageType) (node : NodeRef)
    (suffix : List String) : ∀ x ∈ (createMarker t node suffix).2, entryGood x := by
  intro x hx
  rw [createMarker_eq] at hx
  simp only [List.mem_singleton] at hx
  subst hx
  exact ⟨suffix, rfl⟩

/-- C1: instrumenting a conditional with one if clause, two else-if
clauses and a trailing else produces, for that chain, exactly the four
branch markers keyed on the chain's root statement, numbered "1"–"4" in
source order: "1" heads the if consequence, "2" heads the synthesized
else block wrapping the first else-if, "3" heads the one wrapping the
second else-if, and "4" heads the trailing else body.  (Each rewritten
else-if clause additionally begins with the local branch marker "1" of
its own nested chain, keyed on that clause, per the recursive rewrite.)
The registry entry list confirms those are the only markers the chain
logic creates besides the recursively instrumented bodies. -/
theorem conditional_chain_four_branch_markers
    (M MB M1 MB1 M2 MB2 ME MBE : Meta) (kw kw1 kw2 : String)
    (ca cb cc : Expression) (B B1 B2 BE : List Statement) :
    instrumentIfStatement
      (.mk M kw ca (.mk MB B)
        [.mk M1 kw1 cb (.mk MB1 B1) [] none, .mk M2 kw2 cc (.mk MB2 B2) [] none]
        (some (.mk ME (.mk MBE BE)))) =
    ( IfStatement.mk M kw ca
        (.mk MB ((createMarker .branch (.ifN (.mk M kw ca (.mk MB B)
            [.mk M1 kw1 cb (.mk MB1 B1) [] none, .mk M2 kw2 cc (.mk MB2 B2) [] none]
            (some (.mk ME (.mk MBE BE))))) ["1"]).1 :: (instrumentStatements B).1))
        []
        (some (.mk fake (.mk fake [
          (createMarker .branch (.ifN (.mk M kw ca (.mk MB B)
            [.mk M1 kw1 cb (.mk MB1 B1) [] none, .mk M2 kw2 cc (.mk MB2 B2) [] none]
            (some (.mk ME (.mk MBE BE))))) ["2"]).1,
          .ifS (IfStatement.mk M1 "if" cb
            (.mk MB1 ((createMarker .branch (.ifN (.mk M1 kw1 cb (.mk MB1 B1) [] none)) ["1"]).1
              :: (instrumentStatements B1).1))
            []
            (some (.mk fake (.mk fake [
              (createMarker .branch (.ifN (.mk M kw ca (.mk MB B)
                [.mk M1 kw1 cb (.mk MB1 B1) [] none, .mk M2 kw2 cc (.mk MB2 B2) [] none]
                (some (.mk ME (.mk MBE BE))))) ["3"]).1,
              .ifS (IfStatement.mk M2 "if" cc
                (.mk MB2 ((createMarker .branch (.ifN (.mk M2 kw2 cc (.mk MB2 B2) [] none)) ["1"]).1
                  :: (instrumentStatements B2).1))
                []
                (some (.mk ME (.mk MBE
                  ((createMarker .branch (.ifN (.mk M kw ca (.mk MB B)
                    [.mk M1 kw1 cb (.mk MB1 B1) [] none, .mk M2 kw2 cc (.mk MB2 B2) [] none]
                    (some (.mk ME (.mk MBE BE))))) ["4"]).1 :: (instrumentStatements BE).1)))))])))) ]))),
      (createMarker .branch (.ifN (.mk M kw ca (.mk MB B)
          [.mk M1 kw1 cb (.mk MB1 B1) [] none, .mk M2 kw2 cc (.mk MB2 B2) [] none]
          (some (.mk ME (.mk MBE BE))))) ["1"]).2 ++
      ((instrumentStatements B).2 ++
      ((createMarker .branch (.ifN (.mk M1 kw1 cb (.mk MB1 B1) [] none)) ["1"]).2 ++
      ((instrumentStatements B1).2 ++
      ((createMarker .branch (.ifN (.mk M kw ca (.mk MB B)
          [.mk M1 kw1 cb (.mk MB1 B1) [] none, .mk M2 kw2 cc (.mk MB2 B2) [] none]
          (some (.mk ME (.mk MBE BE))))) ["2"]).2 ++
      ((createMarker .branch (.ifN (.mk M2 kw2 cc (.mk MB2 B2) [] none)) ["1"]).2 ++
      ((instrumentStatements B2).2 ++
      ((createMarker .branch (.ifN (.mk M kw ca (.mk MB B)
          [.mk M1 kw1 cb (.mk MB1 B1) [] none, .mk M2 kw2 cc (.mk MB2 B2) [] none]
          (some (.mk ME (.mk MBE BE))))) ["3"]).2 ++
      ((createMarker .branch (.ifN (.mk M kw ca (.mk MB B)
          [.mk M1 kw1 cb (.mk MB1 B1) [] none, .mk M2 kw2 cc (.mk MB2 B2) [] none]
          (some (.mk ME (.mk MBE BE))))) ["4"]).2 ++
      (instrumentStatements BE).2))))))))) := by
  simp only [instrumentIfStatement, instrumentAnother, toString_nat_two, toString_nat_three,
    toString_nat_four, Nat.reduceAdd, Option.getD_some, Option.getD_none, List.append_nil,
    List.nil_append, List.append_assoc, IfStatement.withKeyword, IfStatement.withAlternative]

/-- The loop of the multi-way-match rewrite, characterized for an
arbitrary starting counter: each case keeps its metadata and tests and
gets the marker pair (switch-keyed with the running number, case-keyed
with no suffix) prepended to its recursively instrumented body, while
the registrations are the concatenation of each case's in order. -/
theorem instrumentSwitchCases_eq (sw : NodeRef) (cases : List CaseStatement) :
    ∀ b : Nat,
    instrumentSwitchCases sw b cases =
      ((cases.enumFrom b).map (fun p => CaseStatement.mk p.2.meta p.2.test
          ((createMarker .branch sw [toString p.1]).1
            :: (createMarker .branch (.caseN p.2) []).1
            :: (instrumentStatements p.2.statements).1)),
        ((cases.enumFrom b).map (fun p =>
          (createMarker .branch sw [toString p.1]).2 ++
          ((createMarker .branch (.caseN p.2) []).2 ++
          (instrumentStatements p.2.statements).2))).flatten) := by
  induction cases with
  | nil => intro b; simp [instrumentSwitchCases, List.enumFrom]
  | cons c rest ih =>
      intro b
      obtain ⟨cm, ctest, cstmts⟩ := c
      simp [instrumentSwitchCases, List.enumFrom_cons, ih (b + 1),
        CaseStatement.meta, CaseStatement.test, CaseStatement.statements]

/-- C3: instrumenting a multi-way match with N case clauses (default
included) produces exactly N marker pairs, one pair prepended to each
case body in source order — the first keyed on the parent switch node
with the 1-based sequential branch number as suffix, the second keyed on
the case clause node with no suffix — followed by the case's recursively
instrumented original body. -/
theorem switch_marker_pairs_per_case
    (m : Meta) (control : Expression) (cases : List CaseStatement) :
    instrumentSwitchStatement (.mk m control cases) =
      (.mk m control
        ((cases.enumFrom 1).map (fun p => CaseStatement.mk p.2.meta p.2.test
          ((createMarker .branch (.switchN (.mk m control cases)) [toString p.1]).1
            :: (createMarker .branch (.caseN p.2) []).1
            :: (instrumentStatements p.2.statements).1))),
        ((cases.enumFrom 1).map (fun p =>
          (createMarker .branch (.switchN (.mk m control cases)) [toString p.1]).2 ++
          ((createMarker .branch (.caseN p.2) []).2 ++
          (instrumentStatements p.2.statements).2))).flatten) := by
  simp only [instrumentSwitchStatement, instrumentSwitchCases_eq]

/-- Every registration the expression instrumenter performs is a branch
registration: expression trees never yield statement or subroutine
markers. -/
theorem instrumentExpression_entries_branch (e : Expression) :
    ∀ x ∈ (instrumentExpression e).2, x.kind = .branch := by
  refine instrumentExpression.induct
    (fun e => ∀ x ∈ (instrumentExpression e).2, x.kind = .branch)
    (fun l => ∀ x ∈ (instrumentExpressionList l).2, x.kind = .branch)
    ?_ ?_ ?_ ?_ ?_ ?_ ?_ ?_ ?_ ?_ ?_ e
  all_goals try simp_all [instrumentExpression, instrumentExpressionList,
    instrumentIfExpression, createMarker_eq, List.mem_append]
  all_goals intros
  all_goals rename_i ih1 ih2 x hx
  all_goals rcases hx with hx | hx
  all_goals first
    | exact ih1 x hx
    | exact ih2 x hx

/-- The list version of `instrumentExpression_entries_branch`, for
argument lists. -/
theorem instrumentExpressionList_entries_branch (l : List Expression) :
    ∀ x ∈ (instrumentExpressionList l).2, x.kind = .branch := by
  induction l with
  | nil => simp [instrumentExpressionList]
  | cons e rest ih =>
      intro x hx
      simp only [instrumentExpressionList, List.mem_append] at hx
      rcases hx with hx | hx
      · exact instrumentExpression_entries_branch e x hx
      · exact ih x hx

/-- C4: a function-call statement receives no statement-level marker:
its instrumentation only instruments the argument expressions, the
inserted statements precede the retained call statement in the enclosing
list, and no registration it performs is a statement registration. -/
theorem function_call_statement_no_marker
    (m : Meta) (fn : Ident) (args : List Expression) (rest : List Statement) :
    instrumentStatement (.functionCallS m fn args) =
      ((instrumentExpressionList args).1, .functionCallS m fn args,
        (instrumentExpressionList args).2)
    ∧ (instrumentStatements (.functionCallS m fn args :: rest)).1 =
        (instrumentExpressionList args).1 ++
          .functionCallS m fn args :: (instrumentStatements rest).1
    ∧ ∀ x ∈ (instrumentExpressionList args).2, x.kind = .branch := by
  refine ⟨?_, ?_, fun x hx => instrumentExpressionList_entries_branch args x hx⟩
  · simp only [instrumentStatement, instrumentFunctionCallStatement]
  · simp only [instrumentStatements, instrumentStatement, instrumentFunctionCallStatement]

theorem function_call_statement_no_marker_witness :
    ((⟨.branch, "branch_5_7_true",
        .exprN (.ifExp ⟨⟨"", "", "", 5, 7⟩⟩ (.identE ⟨fake, "c"⟩)
          (.stringLit fake "a") (.stringLit fake "b"))⟩ : Entry) ∈
      (instrumentExpressionList
        [.ifExp ⟨⟨"", "", "", 5, 7⟩⟩ (.identE ⟨fake, "c"⟩)
          (.stringLit fake "a") (.stringLit fake "b")]).2)
    ∧ (⟨.branch, "branch_5_7_true",
        .exprN (.ifExp ⟨⟨"", "", "", 5, 7⟩⟩ (.identE ⟨fake, "c"⟩)
          (.stringLit fake "a") (.stringLit fake "b"))⟩ : Entry).kind = .branch := by
  have hmem : (⟨.branch, "branch_5_7_true",
      .exprN (.ifExp ⟨⟨"", "", "", 5, 7⟩⟩ (.identE ⟨fake, "c"⟩)
        (.stringLit fake "a") (.stringLit fake "b"))⟩ : Entry) ∈
      (instrumentExpressionList
        [.ifExp ⟨⟨"", "", "", 5, 7⟩⟩ (.identE ⟨fake, "c"⟩)
          (.stringLit fake "a") (.stringLit fake "b")]).2 := by
    simp only [instrumentExpressionList, instrumentExpression, instrumentIfExpression,
      createMarker, NodeRef.getMeta, Expression.metaOf, CoverageType.toName,
      List.append_nil, List.nil_append]
    simp
    exact Or.inl (by decide)
  exact ⟨hmem,
    (function_call_statement_no_marker fake ⟨fake, "fn"⟩
      [.ifExp ⟨⟨"", "", "", 5, 7⟩⟩ (.identE ⟨fake, "c"⟩)
        (.stringLit fake "a") (.stringLit fake "b")] []).2.2 _ hmem⟩

/-- C6: an inline conditional expression is rewritten into exactly one
synthetic conditional statement reusing the same condition expression,
whose then body is exactly the "true" branch marker and whose else body
is exactly the "false" branch marker — both keyed on the whole inline
conditional — while the containing statement (here a set statement)
retains the original expression unmodified and receives the synthetic
statement among its preceding insertions. -/
theorem inline_conditional_synthetic_statement
    (m : Meta) (c t f : Expression) (ms : Meta) (x : String) :
    instrumentExpression (.ifExp m c t f) =
      ([.ifS (.mk fake "if" c
          (.mk fake [(createMarker .branch (.exprN (.ifExp m c t f)) ["true"]).1]) []
          (some (.mk fake (.mk fake
            [(createMarker .branch (.exprN (.ifExp m c t f)) ["false"]).1]))))],
        (createMarker .branch (.exprN (.ifExp m c t f)) ["true"]).2 ++
        (createMarker .branch (.exprN (.ifExp m c t f)) ["false"]).2)
    ∧ instrumentStatement (.setS ms x (.ifExp m c t f)) =
        ((createMarker .statement (.stmtN (.setS ms x (.ifExp m c t f))) []).1
            :: (instrumentExpression (.ifExp m c t f)).1,
          .setS ms x (.ifExp m c t f),
          (createMarker .statement (.stmtN (.setS ms x (.ifExp m c t f))) []).2 ++
            (instrumentExpression (.ifExp m c t f)).2) := by
  constructor
  · simp only [instrumentExpression, instrumentIfExpression]
  · simp only [instrumentStatement]

/-- C9: the expression instrumenter does not descend into an inline
conditional's own condition, consequence or alternative: whatever those
sub-expressions contain, the rewrite yields exactly one synthetic
statement and exactly two registrations, both keyed on the outer inline
conditional itself. -/
theorem if_expression_no_descent (m : Meta) (c t f : Expression) :
    (instrumentExpression (.ifExp m c t f)).1.length = 1
    ∧ (instrumentExpression (.ifExp m c t f)).2.length = 2
    ∧ ∀ x ∈ (instrumentExpression (.ifExp m c t f)).2,
        x.node = .exprN (.ifExp m c t f) ∧ x.kind = .branch := by
  refine ⟨?_, ?_, ?_⟩ <;>
    simp [instrumentExpression, instrumentIfExpression, createMarker_eq]

theorem if_expression_no_descent_witness :
    ((⟨.branch, markerId .branch
        (.exprN (.ifExp fake (.identE ⟨fake, "c"⟩) (.identE ⟨fake, "x"⟩)
          (.ifExp fake (.identE ⟨fake, "d"⟩) (.stringLit fake "a") (.stringLit fake "b"))))
        ["true"],
      .exprN (.ifExp fake (.identE ⟨fake, "c"⟩) (.identE ⟨fake, "x"⟩)
        (.ifExp fake (.identE ⟨fake, "d"⟩) (.stringLit fake "a") (.stringLit fake "b")))⟩ : Entry) ∈
      (instrumentExpression (.ifExp fake (.identE ⟨fake, "c"⟩) (.identE ⟨fake, "x"⟩)
        (.ifExp fake (.identE ⟨fake, "d"⟩) (.stringLit fake "a") (.stringLit fake "b")))).2)
    ∧ (⟨.branch, markerId .branch
        (.exprN (.ifExp fake (.identE ⟨fake, "c"⟩) (.identE ⟨fake, "x"⟩)
          (.ifExp fake (.identE ⟨fake, "d"⟩) (.stringLit fake "a") (.stringLit fake "b"))))
        ["true"],
      .exprN (.ifExp fake (.identE ⟨fake, "c"⟩) (.identE ⟨fake, "x"⟩)
        (.ifExp fake (.identE ⟨fake, "d"⟩) (.stringLit fake "a") (.stringLit fake "b")))⟩ : Entry).node =
      .exprN (.ifExp fake (.identE ⟨fake, "c"⟩) (.identE ⟨fake, "x"⟩)
        (.ifExp fake (.identE ⟨fake, "d"⟩) (.stringLit fake "a") (.stringLit fake "b"))) := by
  have hmem : (⟨.branch, markerId .branch
      (.exprN (.ifExp fake (.identE ⟨fake, "c"⟩) (.identE ⟨fake, "x"⟩)
        (.ifExp fake (.identE ⟨fake, "d"⟩) (.stringLit fake "a") (.stringLit fake "b"))))
      ["true"],
    .exprN (.ifExp fake (.identE ⟨fake, "c"⟩) (.identE ⟨fake, "x"⟩)
      (.ifExp fake (.identE ⟨fake, "d"⟩) (.stringLit fake "a") (.stringLit fake "b")))⟩ : Entry) ∈
      (instrumentExpression (.ifExp fake (.identE ⟨fake, "c"⟩) (.identE ⟨fake, "x"⟩)
        (.ifExp fake (.identE ⟨fake, "d"⟩) (.stringLit fake "a") (.stringLit fake "b")))).2 := by
    simp [instrumentExpression, instrumentIfExpression, createMarker_eq]
  exact ⟨hmem,
    ((if_expression_no_descent fake (.identE ⟨fake, "c"⟩) (.identE ⟨fake, "x"⟩)
      (.ifExp fake (.identE ⟨fake, "d"⟩) (.stringLit fake "a") (.stringLit fake "b"))).2.2
      _ hmem).1⟩

/-- C8: `createMarker` returns the synthetic call statement invoking the
coverage built-in reserved for the kind, with the derived identifier as
its sole string-literal argument; replaying the registration it performs
appends (identifier → node) to the registry bucket matching the kind and
leaves every other bucket unchanged. -/
theorem marker_statement_and_registration
    (t : CoverageType) (node : NodeRef) (suffix : List String) (cov : Coverage) :
    createMarker t node suffix =
      (Statement.functionCallS fake
        ⟨⟨⟨"STRING", "coverage." ++ t.toName, "", 0, 0⟩⟩, "coverage." ++ t.toName⟩
        [Expression.stringLit ⟨⟨"STRING", markerId t node suffix, "", 0, 0⟩⟩
          (markerId t node suffix)],
        [⟨t, markerId t node suffix, node⟩])
    ∧ (cov.applyEntries (createMarker t node suffix).2).bucket t =
        cov.bucket t ++ [(markerId t node suffix, node)]
    ∧ ∀ t2, t2 ≠ t →
        (cov.applyEntries (createMarker t node suffix).2).bucket t2 = cov.bucket t2 := by
  refine ⟨createMarker_eq t node suffix, ?_, ?_⟩
  · rw [createMarker_eq]
    cases t <;>
      simp [Coverage.applyEntries, Coverage.setup, Coverage.bucket]
  · intro t2 ht2
    rw [createMarker_eq]
    cases t <;> cases t2 <;>
      simp_all [Coverage.applyEntries, Coverage.setup, Coverage.bucket]

theorem marker_statement_and_registration_witness :
    (CoverageType.branch ≠ CoverageType.statement)
    ∧ ((⟨[], [], []⟩ : Coverage).applyEntries
        (createMarker .statement (.stmtN (.esiS fake)) []).2).bucket .branch =
      (⟨[], [], []⟩ : Coverage).bucket .branch :=
  ⟨by decide,
    (marker_statement_and_registration .statement (.stmtN (.esiS fake)) [] ⟨[], [], []⟩).2.2
      .branch (by decide)⟩

/-- C5 counterexample: a bare block statement is neither a conditional
chain nor a multi-way match, yet `instrumentStatement` does not retain
it unmodified — its contained statements are instrumented in place, so
the claim that originals are modified only by the conditional-chain and
multi-way-match rewrites fails on it. -/
theorem block_statement_modified_counterexample :
    (instrumentStatement (.block (.mk fake [.esiS fake]))).2.1 ≠
      Statement.block (.mk fake [.esiS fake])
    ∧ (∀ s : IfStatement, Statement.block (.mk fake [.esiS fake]) ≠ .ifS s)
    ∧ (∀ s : SwitchStatement, Statement.block (.mk fake [.esiS fake]) ≠ .switchS s) := by
  refine ⟨?_, by simp, by simp⟩
  simp [instrumentStatement, instrumentStatements, createMarker]

/-- C5 as amended: `instrumentStatements` emits, for each input
statement in order, its inserted pre-statements immediately followed by
the statement's rewritten value, and the rewrite leaves every statement
unchanged except the block, conditional-chain and multi-way-match
kinds (a block statement is also rewritten in place: its contained
statements are instrumented). -/
theorem statements_order_preserved (l : List Statement) :
    (instrumentStatements l).1 =
      (l.map (fun s => (instrumentStatement s).1 ++ [(instrumentStatement s).2.1])).flatten
    ∧ ∀ s : Statement,
        (∀ b, s ≠ .block b) → (∀ i, s ≠ .ifS i) → (∀ w, s ≠ .switchS w) →
        (instrumentStatement s).2.1 = s := by
  constructor
  · induction l with
    | nil => simp [instrumentStatements]
    | cons s rest ih => simp [instrumentStatements, ih]
  · intro s h1 h2 h3
    cases s with
    | block b => exact absurd rfl (h1 b)
    | ifS s => exact absurd rfl (h2 s)
    | switchS s => exact absurd rfl (h3 s)
    | functionCallS m fn args => simp [instrumentStatement]
    | errorS m c a => simp [instrumentStatement]
    | returnS m r => simp [instrumentStatement]
    | setS m i v => simp [instrumentStatement]
    | addS m i v => simp [instrumentStatement]
    | logS m v => simp [instrumentStatement]
    | syntheticS m v => simp [instrumentStatement]
    | syntheticBase64S m v => simp [instrumentStatement]
    | esiS m => simp [instrumentStatement]
    | restartS m => simp [instrumentStatement]
    | breakS m => simp [instrumentStatement]

theorem statements_order_preserved_witness :
    (∀ b, Statement.setS fake "x" (.intLit fake 1) ≠ .block b)
    ∧ (∀ i, Statement.setS fake "x" (.intLit fake 1) ≠ .ifS i)
    ∧ (∀ w, Statement.setS fake "x" (.intLit fake 1) ≠ .switchS w)
    ∧ (instrumentStatement (.setS fake "x" (.intLit fake 1))).2.1 =
        Statement.setS fake "x" (.intLit fake 1) :=
  ⟨by simp, by simp, by simp,
    (statements_order_preserved []).2 (.setS fake "x" (.intLit fake 1))
      (by simp) (by simp) (by simp)⟩

/-- Every registration the expression instrumenter performs has the
marker identifier format. -/
theorem instrumentExpression_entries_good (e : Expression) :
    ∀ x ∈ (instrumentExpression e).2, entryGood x := by
  refine instrumentExpression.induct
    (fun e => ∀ x ∈ (instrumentExpression e).2, entryGood x)
    (fun l => ∀ x ∈ (instrumentExpressionList l).2, entryGood x)
    ?_ ?_ ?_ ?_ ?_ ?_ ?_ ?_ ?_ ?_ ?_ e
  · intro m fn args ih x hx
    simp only [instrumentExpression] at hx
    exact ih x hx
  · intro m r ih x hx
    simp only [instrumentExpression] at hx
    exact ih x hx
  · intro m op lhs rhs ih1 ih2 x hx
    simp only [instrumentExpression, List.mem_append] at hx
    rcases hx with hx | hx
    exacts [ih1 x hx, ih2 x hx]
  · intro m op lhs ih x hx
    simp only [instrumentExpression] at hx
    exact ih x hx
  · intro m op rhs ih x hx
    simp only [instrumentExpression] at hx
    exact ih x hx
  · intro m c cons alt x hx
    simp only [instrumentExpression, instrumentIfExpression, List.mem_append] at hx
    rcases hx with hx | hx
    exacts [createMarker_entries_good _ _ _ x hx, createMarker_entries_good _ _ _ x hx]
  · intro m v x hx
    simp only [instrumentExpression, List.not_mem_nil] at hx
  · intro i x hx
    simp only [instrumentExpression, List.not_mem_nil] at hx
  · intro m v x hx
    simp only [instrumentExpression, List.not_mem_nil] at hx
  · intro x hx
    simp only [instrumentExpressionList, List.not_mem_nil] at hx
  · intro e2 rest ih1 ih2 x hx
    simp only [instrumentExpressionList, List.mem_append] at hx
    rcases hx with hx | hx
    exacts [ih1 x hx, ih2 x hx]

/-- The list version of `instrumentExpression_entries_good`. -/
theorem instrumentExpressionList_entries_good (l : List Expression) :
    ∀ x ∈ (instrumentExpressionList l).2, entryGood x := by
  induction l with
  | nil => simp [instrumentExpressionList]
  | cons e rest ih =>
      intro x hx
      simp only [instrumentExpressionList, List.mem_append] at hx
      rcases hx with hx | hx
      · exact instrumentExpression_entries_good e x hx
      · exact ih x hx

theorem instrumentErrorStatement_entries_good (m : Meta)
    (code argument : Option Expression) :
    ∀ x ∈ (instrumentErrorStatement m code argument).2, entryGood x := by
  intro x hx
  cases code with
  | none =>
      cases argument with
      | none =>
          simp only [instrumentErrorStatement, List.append_nil] at hx
          exact createMarker_entries_good _ _ _ x hx
      | some a =>
          simp only [instrumentErrorStatement, List.append_nil, List.nil_append,
            List.mem_append] at hx
          rcases hx with hx | hx
          exacts [createMarker_entries_good _ _ _ x hx,
            instrumentExpression_entries_good a x hx]
  | some c =>
      cases argument with
      | none =>
          simp only [instrumentErrorStatement, List.append_nil, List.nil_append,
            List.mem_append] at hx
          rcases hx with hx | hx
          exacts [createMarker_entries_good _ _ _ x hx,
            instrumentExpression_entries_good c x hx]
      | some a =>
          simp only [instrumentErrorStatement, List.mem_append] at hx
          rcases hx with (hx | hx) | hx
          exacts [createMarker_entries_good _ _ _ x hx,
            instrumentExpression_entries_good c x hx,
            instrumentExpression_entries_good a x hx]

theorem instrumentReturnStatement_entries_good (m : Meta)
    (returnExpression : Option Expression) :
    ∀ x ∈ (instrumentReturnStatement m returnExpression).2, entryGood x := by
  intro x hx
  cases returnExpression <;>
    simp only [instrumentReturnStatement, List.mem_append, List.append_nil,
      List.nil_append] at hx
  · exact createMarker_entries_good _ _ _ x hx
  · rcases hx with hx | hx
    exacts [createMarker_entries_good _ _ _ x hx,
      instrumentExpression_entries_good _ x hx]

/-- Every registration the statement instrumenter performs has the
marker identifier format. -/
theorem instrumentStatements_entries_good (l : List Statement) :
    ∀ x ∈ (instrumentStatements l).2, entryGood x := by
  refine instrumentStatements.induct
    (fun l => ∀ x ∈ (instrumentStatements l).2, entryGood x)
    (fun s => ∀ x ∈ (instrumentStatement s).2.2, entryGood x)
    (fun sw => ∀ x ∈ (instrumentSwitchStatement sw).2, entryGood x)
    (fun sw b cs => ∀ x ∈ (instrumentSwitchCases sw b cs).2, entryGood x)
    (fun s => ∀ x ∈ (instrumentIfStatement s).2, entryGood x)
    (fun root b another alt => ∀ x ∈ (instrumentAnother root b another alt).2, entryGood x)
    ?_ ?_ ?_ ?_ ?_ ?_ ?_ ?_ ?_ ?_ ?_ ?_ ?_ ?_ ?_ ?_ ?_ ?_ ?_ ?_ ?_ ?_ ?_ l
  · intro x hx
    simp only [instrumentStatements, List.not_mem_nil] at hx
  · intro s rest ih1 ih2 x hx
    simp only [instrumentStatements, List.mem_append] at hx
    rcases hx with hx | hx
    exacts [ih1 x hx, ih2 x hx]
  · intro bm ss ih x hx
    simp only [instrumentStatement] at hx
    exact ih x hx
  · intro s ih x hx
    simp only [instrumentStatement, List.mem_append] at hx
    rcases hx with hx | hx
    exacts [createMarker_entries_good _ _ _ x hx, ih x hx]
  · intro s ih x hx
    simp only [instrumentStatement, List.mem_append] at hx
    rcases hx with hx | hx
    exacts [createMarker_entries_good _ _ _ x hx, ih x hx]
  · intro m fn args x hx
    simp only [instrumentStatement, instrumentFunctionCallStatement] at hx
    exact instrumentExpressionList_entries_good args x hx
  · intro m code argument x hx
    simp only [instrumentStatement] at hx
    exact instrumentErrorStatement_entries_good m code argument x hx
  · intro m r x hx
    simp only [instrumentStatement] at hx
    exact instrumentReturnStatement_entries_good m r x hx
  · intro m i v x hx
    simp only [instrumentStatement, List.mem_append] at hx
    rcases hx with hx | hx
    exacts [createMarker_entries_good _ _ _ x hx,
      instrumentExpression_entries_good v x hx]
  · intro m i v x hx
    simp only [instrumentStatement, List.mem_append] at hx
    rcases hx with hx | hx
    exacts [createMarker_entries_good _ _ _ x hx,
      instrumentExpression_entries_good v x hx]
  · intro m v x hx
    simp only [instrumentStatement, List.mem_append] at hx
    rcases hx with hx | hx
    exacts [createMarker_entries_good _ _ _ x hx,
      instrumentExpression_entries_good v x hx]
  · intro m v x hx
    simp only [instrumentStatement, List.mem_append] at hx
    rcases hx with hx | hx
    exacts [createMarker_entries_good _ _ _ x hx,
      instrumentExpression_entries_good v x hx]
  · intro m v x hx
    simp only [instrumentStatement, List.mem_append] at hx
    rcases hx with hx | hx
    exacts [createMarker_entries_good _ _ _ x hx,
      instrumentExpression_entries_good v x hx]
  · intro m x hx
    simp only [instrumentStatement] at hx
    exact createMarker_entries_good _ _ _ x hx
  · intro m x hx
    simp only [instrumentStatement] at hx
    exact createMarker_entries_good _ _ _ x hx
  · intro m x hx
    simp only [instrumentStatement] at hx
    exact createMarker_entries_good _ _ _ x hx
  · intro m ctrl cs sw ih x hx
    simp only [instrumentSwitchStatement] at hx
    exact ih x hx
  · intro sw b x hx
    simp only [instrumentSwitchCases, List.not_mem_nil] at hx
  · intro sw b cm ctest cstmts rest ih1 ih2 x hx
    simp only [instrumentSwitchCases, List.mem_append] at hx
    rcases hx with ((hx | hx) | hx) | hx
    exacts [createMarker_entries_good _ _ _ x hx, createMarker_entries_good _ _ _ x hx,
      ih1 x hx, ih2 x hx]
  · intro m kw cond cbm cstmts another alternative root ih1 ih2 x hx
    simp only [instrumentIfStatement, List.mem_append] at hx
    rcases hx with (hx | hx) | hx
    exacts [createMarker_entries_good _ _ _ x hx, ih1 x hx, ih2 x hx]
  · intro root b x hx
    simp only [instrumentAnother, List.not_mem_nil] at hx
  · intro root b am abm astmts ih x hx
    simp only [instrumentAnother, List.mem_append] at hx
    rcases hx with hx | hx
    exacts [createMarker_entries_good _ _ _ x hx, ih x hx]
  · intro root b a rest alternative ih1 ih2 x hx
    simp only [instrumentAnother, List.mem_append] at hx
    rcases hx with (hx | hx) | hx
    exacts [ih1 x hx, createMarker_entries_good _ _ _ x hx, ih2 x hx]

/-- C7: every identifier the whole-program instrumentation registers is
the deterministic identifier function of the entry's kind, its
originating node's source position and a suffix — the format
`<kind-prefix>_<line>_<position>` plus the underscore-joined suffix —
and, the pass being a pure function of the tree, re-instrumenting the
same tree yields the identical identifier list. -/
theorem marker_identifier_format_deterministic (vcl : VCL) :
    (∀ e ∈ (instrument vcl).2, ∃ suffix, e.id = markerId e.kind e.node suffix)
    ∧ ∀ vcl2, vcl2 = vcl →
        ((instrument vcl2).2.map Entry.id) = ((instrument vcl).2.map Entry.id) := by
  constructor
  · have roots : ∀ rs : List RootDeclaration, ∀ x ∈ (instrumentRoots rs).2, entryGood x := by
      intro rs
      induction rs with
      | nil => simp [instrumentRoots]
      | cons r rest ih =>
          intro x hx
          cases r with
          | subroutine s =>
              simp only [instrumentRoots, instrumentSubroutine, List.mem_append] at hx
              rcases hx with (hx | hx) | hx
              exacts [createMarker_entries_good _ _ _ x hx,
                instrumentStatements_entries_good _ x hx, ih x hx]
          | otherDecl m =>
              simp only [instrumentRoots] at hx
              exact ih x hx
    intro e he
    simp only [instrument] at he
    exact roots vcl.statements e he
  · intro vcl2 h
    rw [h]

theorem marker_identifier_format_deterministic_witness :
    ((⟨.statement, "stmt_2_4", .stmtN (.esiS ⟨⟨"", "", "", 2, 4⟩⟩)⟩ : Entry) ∈
      (instrument ⟨[.subroutine ⟨⟨⟨"", "", "", 1, 1⟩⟩, ⟨fake, "sub vcl_recv"⟩,
        .mk fake [.esiS ⟨⟨"", "", "", 2, 4⟩⟩]⟩]⟩).2)
    ∧ ∃ suffix,
        (⟨.statement, "stmt_2_4", .stmtN (.esiS ⟨⟨"", "", "", 2, 4⟩⟩)⟩ : Entry).id =
          markerId (⟨.statement, "stmt_2_4", .stmtN (.esiS ⟨⟨"", "", "", 2, 4⟩⟩)⟩ : Entry).kind
            (⟨.statement, "stmt_2_4", .stmtN (.esiS ⟨⟨"", "", "", 2, 4⟩⟩)⟩ : Entry).node suffix := by
  have hmem : (⟨.statement, "stmt_2_4", .stmtN (.esiS ⟨⟨"", "", "", 2, 4⟩⟩)⟩ : Entry) ∈
      (instrument ⟨[.subroutine ⟨⟨⟨"", "", "", 1, 1⟩⟩, ⟨fake, "sub vcl_recv"⟩,
        .mk fake [.esiS ⟨⟨"", "", "", 2, 4⟩⟩]⟩]⟩).2 := by
    simp only [instrument, instrumentRoots, instrumentSubroutine, instrumentStatements,
      instrumentStatement, createMarker, NodeRef.getMeta, Statement.metaOf,
      SubroutineDeclaration.meta, BlockStatement.statements, BlockStatement.meta,
      CoverageType.toName, List.append_nil, List.nil_append]
    simp
    decide
  exact ⟨hmem,
    (marker_identifier_format_deterministic
      ⟨[.subroutine ⟨⟨⟨"", "", "", 1, 1⟩⟩, ⟨fake, "sub vcl_recv"⟩,
        .mk fake [.esiS ⟨⟨"", "", "", 2, 4⟩⟩]⟩]⟩).1 _ hmem⟩

/-- C10: `testing.fixed_time` returns a typed error — leaving the fixed
clock untouched — exactly when the argument list does not contain one
value, or the value's type is not INTEGER, TIME or STRING, or a STRING
value fails to parse with the fixed layout; otherwise it installs the
fixed clock derived from the argument and returns Null with no error. -/
theorem fixed_time_error_conditions (ctx : Context) (args : List Value) :
    ((Testing_fixed_time ctx args).err.isSome ↔
      (args.length ≠ 1 ∨
        ∃ v, args = [v] ∧
          ((v.type ≠ .integer ∧ v.type ≠ .time ∧ v.type ≠ .string) ∨
            ∃ s, v = .str s ∧ goParseFixedTime s = none)))
    ∧ ((Testing_fixed_time ctx args).err.isSome → (Testing_fixed_time ctx args).ctx = ctx)
    ∧ ((Testing_fixed_time ctx args).err = none →
        (Testing_fixed_time ctx args).value = some .null ∧
        ∃ v, args = [v] ∧
          ((∃ i, v = .integer i ∧
              (Testing_fixed_time ctx args).ctx.fixedTime = some (.fromUnix i)) ∨
            (∃ t, v = .time t ∧
              (Testing_fixed_time ctx args).ctx.fixedTime = some t) ∨
            ∃ s ft, v = .str s ∧ goParseFixedTime s = some ft ∧
              (Testing_fixed_time ctx args).ctx.fixedTime = some ft)) := by
  match args with
  | [] =>
      refine ⟨by simp [Testing_fixed_time, Testing_fixed_time_Validate], ?_, ?_⟩
      · intro _
        simp [Testing_fixed_time, Testing_fixed_time_Validate]
      · intro h
        simp [Testing_fixed_time, Testing_fixed_time_Validate] at h
  | v :: w :: rest =>
      refine ⟨by simp [Testing_fixed_time, Testing_fixed_time_Validate], ?_, ?_⟩
      · intro _
        simp [Testing_fixed_time, Testing_fixed_time_Validate]
      · intro h
        simp [Testing_fixed_time, Testing_fixed_time_Validate] at h
  | [v] =>
      cases v with
      | integer i =>
          refine ⟨by simp [Testing_fixed_time, Testing_fixed_time_Validate, Value.type], ?_, ?_⟩
          · intro h
            simp [Testing_fixed_time, Testing_fixed_time_Validate] at h
          · intro _
            refine ⟨by simp [Testing_fixed_time, Testing_fixed_time_Validate], ?_⟩
            exact ⟨.integer i, rfl,
              Or.inl ⟨i, rfl, by simp [Testing_fixed_time, Testing_fixed_time_Validate]⟩⟩
      | time t =>
          refine ⟨by simp [Testing_fixed_time, Testing_fixed_time_Validate, Value.type], ?_, ?_⟩
          · intro h
            simp [Testing_fixed_time, Testing_fixed_time_Validate] at h
          · intro _
            refine ⟨by simp [Testing_fixed_time, Testing_fixed_time_Validate], ?_⟩
            exact ⟨.time t, rfl,
              Or.inr (Or.inl ⟨t, rfl, by simp [Testing_fixed_time, Testing_fixed_time_Validate]⟩)⟩
      | str s =>
          cases hp : goParseFixedTime s with
          | none =>
              refine ⟨?_, ?_, ?_⟩
              · simp [Testing_fixed_time, Testing_fixed_time_Validate, Value.type, hp]
              · intro _
                simp [Testing_fixed_time, Testing_fixed_time_Validate, hp]
              · intro h
                simp [Testing_fixed_time, Testing_fixed_time_Validate, hp] at h
          | some ft =>
              refine ⟨?_, ?_, ?_⟩
              · simp [Testing_fixed_time, Testing_fixed_time_Validate, Value.type, hp]
              · intro h
                simp [Testing_fixed_time, Testing_fixed_time_Validate, hp] at h
              · intro _
                refine ⟨by simp [Testing_fixed_time, Testing_fixed_time_Validate, hp], ?_⟩
                exact ⟨.str s, rfl,
                  Or.inr (Or.inr ⟨s, ft, rfl, hp,
                    by simp [Testing_fixed_time, Testing_fixed_time_Validate, hp]⟩)⟩
      | float f =>
          refine ⟨by simp [Testing_fixed_time, Testing_fixed_time_Validate, Value.type], ?_, ?_⟩
          · intro _
            simp [Testing_fixed_time, Testing_fixed_time_Validate]
          · intro h
            simp [Testing_fixed_time, Testing_fixed_time_Validate] at h
      | boolean b =>
          refine ⟨by simp [Testing_fixed_time, Testing_fixed_time_Validate, Value.type], ?_, ?_⟩
          · intro _
            simp [Testing_fixed_time, Testing_fixed_time_Validate]
          · intro h
            simp [Testing_fixed_time, Testing_fixed_time_Validate] at h
      | rtime r =>
          refine ⟨by simp [Testing_fixed_time, Testing_fixed_time_Validate, Value.type], ?_, ?_⟩
          · intro _
            simp [Testing_fixed_time, Testing_fixed_time_Validate]
          · intro h
            simp [Testing_fixed_time, Testing_fixed_time_Validate] at h
      | backend n =>
          refine ⟨by simp [Testing_fixed_time, Testing_fixed_time_Validate, Value.type], ?_, ?_⟩
          · intro _
            simp [Testing_fixed_time, Testing_fixed_time_Validate]
          · intro h
            simp [Testing_fixed_time, Testing_fixed_time_Validate] at h
      | acl n =>
          refine ⟨by simp [Testing_fixed_time, Testing_fixed_time_Validate, Value.type], ?_, ?_⟩
          · intro _
            simp [Testing_fixed_time, Testing_fixed_time_Validate]
          · intro h
            simp [Testing_fixed_time, Testing_fixed_time_Validate] at h
      | ip a =>
          refine ⟨by simp [Testing_fixed_time, Testing_fixed_time_Validate, Value.type], ?_, ?_⟩
          · intro _
            simp [Testing_fixed_time, Testing_fixed_time_Validate]
          · intro h
            simp [Testing_fixed_time, Testing_fixed_time_Validate] at h
      | null =>
          refine ⟨by simp [Testing_fixed_time, Testing_fixed_time_Validate, Value.type], ?_, ?_⟩
          · intro _
            simp [Testing_fixed_time, Testing_fixed_time_Validate]
          · intro h
            simp [Testing_fixed_time, Testing_fixed_time_Validate] at h

theorem project_append (a b : List Event) : project (a ++ b) = project a ++ project b := by
  simp [project, List.filter_append]

theorem execStmts_append (ce : Expression → Bool)
    (pk : Expression → List (Option Expression) → Option Nat) (a b : List Statement) :
    execStmts ce pk (a ++ b) = execStmts ce pk a ++ execStmts ce pk b := by
  induction a with
  | nil => simp [execStmts]
  | cons s rest ih => simp [execStmts, ih]

theorem execStmts_append_cons (ce : Expression → Bool)
    (pk : Expression → List (Option Expression) → Option Nat)
    (a : List Statement) (x : Statement) (r : List Statement) :
    execStmts ce pk (a ++ x :: r) =
      execStmts ce pk (a ++ [x]) ++ execStmts ce pk r := by
  rw [← execStmts_append]
  congr 1
  simp

/-- Executing a marker statement is purely a coverage-registry update:
its projection onto observable effects is empty. -/
theorem project_execStmt_createMarker (ce : Expression → Bool)
    (pk : Expression → List (Option Expression) → Option Nat)
    (t : CoverageType) (node : NodeRef) (suffix : List String) :
    project (execStmt ce pk (createMarker t node suffix).1) = [] := by
  rw [createMarker_eq]
  cases t <;>
    simp [execStmt, project, isCoverageCall, coverageFunctionNames, CoverageType.toName,
      Ident.value]

/-- The statements the expression instrumenter inserts (synthetic
conditionals whose bodies are single markers) have no observable
effects. -/
theorem project_execStmts_instrumentExpression (ce : Expression → Bool)
    (pk : Expression → List (Option Expression) → Option Nat) (e : Expression) :
    project (execStmts ce pk (instrumentExpression e).1) = [] := by
  refine instrumentExpression.induct
    (fun e => project (execStmts ce pk (instrumentExpression e).1) = [])
    (fun l => project (execStmts ce pk (instrumentExpressionList l).1) = [])
    ?_ ?_ ?_ ?_ ?_ ?_ ?_ ?_ ?_ ?_ ?_ e
  · intro m fn args ih
    simp only [instrumentExpression]
    exact ih
  · intro m r ih
    simp only [instrumentExpression]
    exact ih
  · intro m op lhs rhs ih1 ih2
    simp only [instrumentExpression, execStmts_append, project_append, ih1, ih2,
      List.append_nil]
  · intro m op lhs ih
    simp only [instrumentExpression]
    exact ih
  · intro m op rhs ih
    simp only [instrumentExpression]
    exact ih
  · intro m c cons alt
    simp only [instrumentExpression, instrumentIfExpression, execStmts, execStmt, execIf,
      List.append_nil]
    by_cases h : ce c <;>
      simp [h, execStmts, execElse, project_append, project_execStmt_createMarker]
  · intro m v
    simp [instrumentExpression, execStmts, project]
  · intro i
    simp [instrumentExpression, execStmts, project]
  · intro m v
    simp [instrumentExpression, execStmts, project]
  · simp [instrumentExpressionList, execStmts, project]
  · intro e2 rest ih1 ih2
    simp only [instrumentExpressionList, execStmts_append, project_append, ih1, ih2,
      List.append_nil]

/-- The list version of `project_execStmts_instrumentExpression`. -/
theorem project_execStmts_instrumentExpressionList (ce : Expression → Bool)
    (pk : Expression → List (Option Expression) → Option Nat) (l : List Expression) :
    project (execStmts ce pk (instrumentExpressionList l).1) = [] := by
  induction l with
  | nil => simp [instrumentExpressionList, execStmts, project]
  | cons e rest ih =>
      simp only [instrumentExpressionList, execStmts_append, project_append,
        project_execStmts_instrumentExpression, ih, List.append_nil]

theorem project_nil : project [] = [] := rfl

theorem project_execStmts_instrumentErrorStatement (ce : Expression → Bool)
    (pk : Expression → List (Option Expression) → Option Nat) (m : Meta)
    (code argument : Option Expression) :
    project (execStmts ce pk (instrumentErrorStatement m code argument).1) = [] := by
  cases code <;> cases argument <;>
    simp only [instrumentErrorStatement, execStmts, execStmts_append, project_append,
      project_execStmt_createMarker, project_execStmts_instrumentExpression,
      project_nil, List.append_nil, List.nil_append]

theorem project_execStmts_instrumentReturnStatement (ce : Expression → Bool)
    (pk : Expression → List (Option Expression) → Option Nat) (m : Meta)
    (returnExpression : Option Expression) :
    project (execStmts ce pk (instrumentReturnStatement m returnExpression).1) = [] := by
  cases returnExpression <;>
    simp only [instrumentReturnStatement, execStmts, execStmts_append, project_append,
      project_execStmt_createMarker, project_execStmts_instrumentExpression,
      project_nil, List.append_nil, List.nil_append]

/-- `instrumentAnother` leaves the chain tail's alternative untouched
only when the clause list is exhausted with no trailing else. -/
theorem instrumentAnother_fst_none (root : NodeRef) (b : Nat)
    (another : List IfStatement) (alternative : Option ElseStatement)
    (h : (instrumentAnother root b another alternative).1 = none) :
    another = [] ∧ alternative = none := by
  cases another with
  | nil =>
      cases alternative with
      | none => exact ⟨rfl, rfl⟩
      | some alt =>
          obtain ⟨am, abm, astmts⟩ := alt
          simp [instrumentAnother] at h
  | cons a rest => simp [instrumentAnother] at h

/-- The central refinement lemma: on parser-shaped statement lists, the
observable-effect projection of executing the instrumented list equals
that of executing the original list, for every condition valuation and
case selection. -/
theorem instrumentStatements_exec_equiv (ce : Expression → Bool)
    (pk : Expression → List (Option Expression) → Option Nat) (l : List Statement) :
    chainWFList l = true →
    project (execStmts ce pk (instrumentStatements l).1) =
      project (execStmts ce pk l) := by
  refine instrumentStatements.induct
    (fun l => chainWFList l = true →
      project (execStmts ce pk (instrumentStatements l).1) =
        project (execStmts ce pk l))
    (fun s => chainWFStmt s = true →
      project (execStmts ce pk
          ((instrumentStatement s).1 ++ [(instrumentStatement s).2.1])) =
        project (execStmt ce pk s))
    (fun sw => chainWFStmt (.switchS sw) = true →
      project (execStmt ce pk (.switchS (instrumentSwitchStatement sw).1)) =
        project (execStmt ce pk (.switchS sw)))
    (fun swn b cs => chainWFCases cs = true →
      ((instrumentSwitchCases swn b cs).1.map CaseStatement.test =
        cs.map CaseStatement.test) ∧
      ∀ k, project (execSwitchCases ce pk k (instrumentSwitchCases swn b cs).1) =
        project (execSwitchCases ce pk k cs))
    (fun s => chainWFIf s = true →
      project (execIf ce pk (instrumentIfStatement s).1) =
        project (execIf ce pk s))
    (fun root b another alt => chainWFAnother another = true → chainWFAlt alt = true →
      project (execElse ce pk []
          ((instrumentAnother root b another alt).1.getD alt)) =
        project (execElse ce pk another alt))
    ?_ ?_ ?_ ?_ ?_ ?_ ?_ ?_ ?_ ?_ ?_ ?_ ?_ ?_ ?_ ?_ ?_ ?_ ?_ ?_ ?_ ?_ ?_ l
  · intro _
    simp [instrumentStatements]
  · intro s rest ih1 ih2 hwf
    simp only [chainWFList, Bool.and_eq_true] at hwf
    have h1 := ih1 hwf.1
    have h2 := ih2 hwf.2
    simp only [execStmts_append, execStmts, project_append, List.append_nil] at h1
    simp only [instrumentStatements, execStmts, project_append]
    rw [execStmts_append_cons]
    simp only [execStmts_append, execStmts, project_append, List.append_nil]
    rw [h1, h2]
  · intro bm ss ih hwf
    simp only [chainWFStmt] at hwf
    simp only [instrumentStatement, List.nil_append, execStmts, execStmt, List.append_nil]
    exact ih hwf
  · intro s ih hwf
    simp only [chainWFStmt] at hwf
    simp only [instrumentStatement, List.cons_append, List.nil_append, execStmts, execStmt,
      project_append, project_execStmt_createMarker, List.append_nil]
    exact ih hwf
  · intro s ih hwf
    simp only [instrumentStatement, List.cons_append, List.nil_append, execStmts,
      project_append, project_execStmt_createMarker, List.append_nil]
    exact ih hwf
  · intro m fn args _
    simp only [instrumentStatement, instrumentFunctionCallStatement, execStmts_append,
      project_append, project_execStmts_instrumentExpressionList, execStmts,
      List.append_nil, List.nil_append]
  · intro m code argument _
    simp only [instrumentStatement, execStmts_append, project_append,
      project_execStmts_instrumentErrorStatement, execStmts, List.append_nil,
      List.nil_append]
  · intro m r _
    simp only [instrumentStatement, execStmts_append, project_append,
      project_execStmts_instrumentReturnStatement, execStmts, List.append_nil,
      List.nil_append]
  · intro m i v _
    simp only [instrumentStatement, List.cons_append, execStmts, execStmts_append,
      project_append, project_execStmt_createMarker, project_execStmts_instrumentExpression,
      List.append_nil, List.nil_append]
  · intro m i v _
    simp only [instrumentStatement, List.cons_append, execStmts, execStmts_append,
      project_append, project_execStmt_createMarker, project_execStmts_instrumentExpression,
      List.append_nil, List.nil_append]
  · intro m v _
    simp only [instrumentStatement, List.cons_append, execStmts, execStmts_append,
      project_append, project_execStmt_createMarker, project_execStmts_instrumentExpression,
      List.append_nil, List.nil_append]
  · intro m v _
    simp only [instrumentStatement, List.cons_append, execStmts, execStmts_append,
      project_append, project_execStmt_createMarker, project_execStmts_instrumentExpression,
      List.append_nil, List.nil_append]
  · intro m v _
    simp only [instrumentStatement, List.cons_append, execStmts, execStmts_append,
      project_append, project_execStmt_createMarker, project_execStmts_instrumentExpression,
      List.append_nil, List.nil_append]
  · intro m _
    simp only [instrumentStatement, List.cons_append, List.nil_append, execStmts,
      project_append, project_execStmt_createMarker, List.append_nil]
  · intro m _
    simp only [instrumentStatement, List.cons_append, List.nil_append, execStmts,
      project_append, project_execStmt_createMarker, List.append_nil]
  · intro m _
    simp only [instrumentStatement, List.cons_append, List.nil_append, execStmts,
      project_append, project_execStmt_createMarker, List.append_nil]
  · intro m ctrl cs sw ih hwf
    simp only [chainWFStmt] at hwf
    obtain ⟨htest, hrun⟩ := ih hwf
    simp only [instrumentSwitchStatement, execStmt, htest]
    cases hpk : pk ctrl (cs.map CaseStatement.test) with
    | none => simp only [hpk]
    | some k =>
        simp only [hpk]
        exact hrun k
  · intro sw b _
    exact ⟨by simp [instrumentSwitchCases], fun k => by simp [instrumentSwitchCases]⟩
  · intro sw b cm ctest cstmts rest ih1 ih2 hwf
    simp only [chainWFCases, Bool.and_eq_true] at hwf
    obtain ⟨htest, hrun⟩ := ih2 hwf.2
    constructor
    · simp only [instrumentSwitchCases, List.map_cons, CaseStatement.test, htest]
    · intro k
      cases k with
      | zero =>
          simp only [instrumentSwitchCases, execSwitchCases, execStmts, project_append,
            project_execStmt_createMarker, List.nil_append]
          exact ih1 hwf.1
      | succ k2 =>
          simp only [instrumentSwitchCases, execSwitchCases]
          exact hrun k2
  · intro m kw cond cbm cstmts another alternative root ih1 ih2 hwf
    simp only [chainWFIf, Bool.and_eq_true] at hwf
    simp only [instrumentIfStatement, execIf]
    by_cases h : ce cond
    · simp only [h, if_true, execStmts, project_append, project_execStmt_createMarker,
        List.nil_append]
      exact ih1 hwf.1.1
    · simp only [h, if_false]
      exact ih2 hwf.1.2 hwf.2
  · intro root b _ _
    simp [instrumentAnother, Option.getD]
  · intro root b am abm astmts ih _ halt
    simp only [chainWFAlt] at halt
    simp only [instrumentAnother, Option.getD_some, execElse, execStmts, project_append,
      project_execStmt_createMarker, List.nil_append]
    exact ih halt
  · intro root b a rest alternative ih5 ih6 hano halt
    obtain ⟨am, akw, acond, ⟨acbm, aconseq⟩, aanother, aalt⟩ := a
    simp only [chainWFAnother, Bool.and_eq_true] at hano
    rcases hano with ⟨⟨⟨hemp, hnone⟩, hconseq⟩, hrest⟩
    cases aanother with
    | cons x xs => simp at hemp
    | nil =>
    cases aalt with
    | some x => simp at hnone
    | none =>
    have h5 := ih5 (by simp [chainWFIf, chainWFAnother, chainWFAlt, hconseq])
    cases hpn : (instrumentAnother root (b + 1) rest alternative).1 with
    | none =>
        obtain ⟨hr, ha⟩ := instrumentAnother_fst_none _ _ _ _ hpn
        subst hr
        subst ha
        by_cases h : ce acond
        · simp only [instrumentIfStatement, instrumentAnother, Option.getD_none, execIf, h,
            if_true, execStmts, project_append, project_execStmt_createMarker,
            List.nil_append, List.append_nil] at h5
          simp only [instrumentAnother, instrumentIfStatement, Option.getD_some,
            Option.getD_none, IfStatement.withKeyword, execElse, execStmts, execStmt,
            execIf, h, if_true, project_append, project_execStmt_createMarker,
            List.nil_append, List.append_nil]
          exact h5
        · simp only [instrumentAnother, instrumentIfStatement, Option.getD_some,
            Option.getD_none, IfStatement.withKeyword, execElse, execStmts, execStmt,
            execIf, h, if_false, project_append, project_execStmt_createMarker,
            List.nil_append, List.append_nil]
          simp [h]
    | some v =>
        by_cases h : ce acond
        · simp only [instrumentIfStatement, instrumentAnother, Option.getD_none, execIf, h,
            if_true, execStmts, project_append, project_execStmt_createMarker,
            List.nil_append, List.append_nil] at h5
          simp only [instrumentAnother, instrumentIfStatement, hpn, Option.getD_some,
            Option.getD_none, IfStatement.withKeyword, IfStatement.withAlternative,
            execElse, execStmts, execStmt, execIf, h, if_true, project_append,
            project_execStmt_createMarker, List.nil_append, List.append_nil]
          exact h5
        · have h6 := ih6 hrest halt
          rw [hpn, Option.getD_some] at h6
          simp only [instrumentAnother, instrumentIfStatement, hpn, Option.getD_some,
            Option.getD_none, IfStatement.withKeyword, IfStatement.withAlternative,
            execElse, execStmts, execStmt, execIf, h, if_false, project_append,
            project_execStmt_createMarker, List.nil_append, List.append_nil]
          exact h6

/-- C2: executing the tree produced by the conditional-chain rewriter
yields the same externally observable side effects as executing the
original chain — for every pure condition valuation (hence under exactly
the same condition truth table) and every case selection — apart from
the coverage-registry updates that the projection removes.  The chain
(and its bodies) are parser-shaped, as produced by the front end. -/
theorem chain_rewrite_semantics_preserved (ce : Expression → Bool)
    (pk : Expression → List (Option Expression) → Option Nat) (s : IfStatement)
    (h : chainWFIf s = true) :
    project (execStmts ce pk (instrumentStatements [.ifS s]).1) =
      project (execStmts ce pk [.ifS s]) := by
  refine instrumentStatements_exec_equiv ce pk [.ifS s] ?_
  simp [chainWFList, chainWFStmt, h]

theorem chain_rewrite_semantics_preserved_witness :
    (chainWFIf (.mk fake "if" (.identE ⟨fake, "a"⟩)
        (.mk fake [.setS fake "x" (.intLit fake 1)])
        [.mk fake "elseif" (.identE ⟨fake, "b"⟩)
          (.mk fake [.setS fake "x" (.intLit fake 2)]) [] none]
        (some (.mk fake (.mk fake [.setS fake "x" (.intLit fake 3)])))) = true)
    ∧ project (execStmts (fun _ => false) (fun _ _ => none)
        (instrumentStatements [.ifS (.mk fake "if" (.identE ⟨fake, "a"⟩)
          (.mk fake [.setS fake "x" (.intLit fake 1)])
          [.mk fake "elseif" (.identE ⟨fake, "b"⟩)
            (.mk fake [.setS fake "x" (.intLit fake 2)]) [] none]
          (some (.mk fake (.mk fake [.setS fake "x" (.intLit fake 3)]))))]).1) =
      project (execStmts (fun _ => false) (fun _ _ => none)
        [.ifS (.mk fake "if" (.identE ⟨fake, "a"⟩)
          (.mk fake [.setS fake "x" (.intLit fake 1)])
          [.mk fake "elseif" (.identE ⟨fake, "b"⟩)
            (.mk fake [.setS fake "x" (.intLit fake 2)]) [] none]
          (some (.mk fake (.mk fake [.setS fake "x" (.intLit fake 3)]))))]) := by
  have hwf : chainWFIf (.mk fake "if" (.identE ⟨fake, "a"⟩)
      (.mk fake [.setS fake "x" (.intLit fake 1)])
      [.mk fake "elseif" (.identE ⟨fake, "b"⟩)
        (.mk fake [.setS fake "x" (.intLit fake 2)]) [] none]
      (some (.mk fake (.mk fake [.setS fake "x" (.intLit fake 3)])))) = true := by
    simp [chainWFIf, chainWFList, chainWFStmt, chainWFAnother, chainWFAlt]
  exact ⟨hwf, chain_rewrite_semantics_preserved (fun _ => false) (fun _ _ => none) _ hwf⟩

theorem fixed_time_error_conditions_witness :
    ((Testing_fixed_time ⟨none⟩ [.boolean true]).err.isSome
      ∧ (Testing_fixed_time ⟨none⟩ [.boolean true]).ctx = ⟨none⟩)
    ∧ ((Testing_fixed_time ⟨none⟩ [.str "2023-01-02 03:04:05"]).err = none
      ∧ (Testing_fixed_time ⟨none⟩ [.str "2023-01-02 03:04:05"]).value = some .null
      ∧ ∃ v, [Value.str "2023-01-02 03:04:05"] = [v] ∧
          ((∃ i, v = .integer i ∧
              (Testing_fixed_time ⟨none⟩ [.str "2023-01-02 03:04:05"]).ctx.fixedTime =
                some (.fromUnix i)) ∨
            (∃ t, v = .time t ∧
              (Testing_fixed_time ⟨none⟩ [.str "2023-01-02 03:04:05"]).ctx.fixedTime = some t) ∨
            ∃ s ft, v = .str s ∧ goParseFixedTime s = some ft ∧
              (Testing_fixed_time ⟨none⟩ [.str "2023-01-02 03:04:05"]).ctx.fixedTime = some ft)) :=
  ⟨⟨by decide,
      (fixed_time_error_conditions ⟨none⟩ [.boolean true]).2.1 (by decide)⟩,
    ⟨by decide,
      (fixed_time_error_conditions ⟨none⟩ [.str "2023-01-02 03:04:05"]).2.2 (by decide)⟩⟩

end Falco
